import Mathlib

/-!
Shallow embedding of the F1_Data repository's caching and parsing core
(`cache.py`, `api.py`, `models.py`), together with proofs about the
cache-key derivation, the tiered cache, the fetch orchestrator, the
tolerant record parser and the duration normalizer.

Modelling conventions:
* Python strings are `List Char` (named `Str` below); `len`, `+`, `in`,
  `"&".join`, `str.split` become `List.length`, `++`, membership,
  `List.intercalate` and `List.splitOn`.
* Python `None` is `Json.null`; a Python value of type `Any` flowing
  through the cache is a `Json`.
* Exceptions are modelled with `Except String`: `Except.error` is a
  raised exception, a `try/except` block is a `match` on it.
* External collaborators (the `json` stdlib's `dumps`/`loads`, `md5`,
  the interpreter's `hash`) are fields of an `PyLibs` record passed in,
  since their code is not part of this repository.
* Time is a `Nat` clock passed explicitly; a TTL entry is valid while
  `now < insertion time + ttl`.
-/

/-- Python strings, modelled as lists of characters. -/
abbrev Str := List Char

/-- Turn a Lean string literal into the `Str` model. -/
def S (s : String) : Str := s.data

/-- JSON values as they flow through this code; `Json.null` doubles as
Python `None` (the two are indistinguishable in `RedisCache.get`). -/
inductive Json where
  | null
  | bool (b : Bool)
  | num (n : Int)
  | str (s : Str)
  | arr (xs : List Json)
  | obj (fields : List (Str × Json))

/-- A Python keyword-argument mapping (`**params`), as a list of
key/value pairs; a `dict` has no duplicate keys, and rendered values
(`f"{v}"`) are strings. -/
abbrev Params := List (Str × Str)

/-- External collaborators used by `cache.py` that live outside this
repository: `hashlib.md5(...).hexdigest()`, the interpreter's `hash`
on tuples of sorted items, and the `json` stdlib's `dumps`/`loads`
(with `loads` returning `none` when it raises). -/
structure PyLibs where
  md5hex : Str → Str
  pyhash : List (Str × Str) → Int
  dumps : Json → Str
  loads : Str → Option Json

/-- Python's comparison on `(key, value)` tuples of strings:
lexicographic on the pair. -/
def pairLe (p q : Str × Str) : Prop := toLex p ≤ toLex q

instance : DecidableRel pairLe := fun p q =>
  inferInstanceAs (Decidable (toLex p ≤ toLex q))

instance : IsTotal (Str × Str) pairLe :=
  ⟨fun a b => le_total (toLex a) (toLex b)⟩

instance : IsTrans (Str × Str) pairLe :=
  ⟨fun _ _ _ h h2 => le_trans h h2⟩

instance : IsAntisymm (Str × Str) pairLe :=
  ⟨fun a b h h2 => toLex.injective (le_antisymm h h2)⟩

/-- `sorted(params.items())` from `cache.py` line 62: Python's sort is a
stable sort under the lexicographic tuple order; since that order is
total and antisymmetric the sorted list is unique, so insertion sort
models it exactly. -/
def sortParams (ps : Params) : Params := ps.insertionSort pairLe

/-- `f"{k}={v}"` for one parameter pair. -/
def encPair (kv : Str × Str) : Str := kv.1 ++ '=' :: kv.2

/-- `"&".join(f"{k}={v}" for k, v in sorted(params.items()))`
(`cache.py` line 62). -/
def paramStr (params : Params) : Str :=
  List.intercalate ['&'] ((sortParams params).map encPair)

/-- `key_str = f"{path}?{param_str}" if param_str else path`
(`cache.py` line 63). -/
def keyStr (path : Str) (params : Params) : Str :=
  if paramStr params ≠ [] then path ++ '?' :: paramStr params else path

/-- `RedisCache._make_key` (`cache.py` lines 59-70): build
`namespace:path?k1=v1&k2=v2...` from the sorted parameters, hashing
keys longer than 200 characters. -/
def make_key (ext : PyLibs) (ns path : Str) (params : Params) : Str :=
  if 200 < (keyStr path params).length then
    ns ++ S ":hash:" ++ ext.md5hex (keyStr path params)
  else
    ns ++ ':' :: keyStr path params

/-- `CACHE_SETTINGS` (`cache.py` lines 16-27): per-endpoint
`(ttl, maxsize)`. -/
def CACHE_SETTINGS : List (Str × Nat × Nat) :=
  [(S "meetings", 3600 * 24, 100),
   (S "sessions", 3600 * 12, 500),
   (S "drivers", 3600 * 6, 1000),
   (S "laps", 600, 5000),
   (S "stints", 1200, 2000),
   (S "pit", 1200, 1000),
   (S "car_data", 300, 10000),
   (S "position", 300, 5000),
   (S "weather", 1800, 500),
   (S "race_control", 600, 1000)]

/-- `get_cache_settings` (`cache.py` lines 30-32): policy lookup with
the `{"ttl": 600, "maxsize": 1000}` default for unknown endpoints. -/
def get_cache_settings (endpoint : Str) : Nat × Nat :=
  match CACHE_SETTINGS.find? (fun e => e.1 == endpoint) with
  | some e => e.2
  | none => (600, 1000)

/-- One entry of the in-memory `cachetools.TTLCache`: key, value, and
the absolute time at which it expires. -/
structure MemEntry where
  key : Str
  val : Json
  expireAt : Nat

/-- The in-memory tier, `cachetools.TTLCache(maxsize, ttl)`.  Entries
are newest-first; capacity is enforced on insertion (the exact eviction
order of a full cache is abstracted, which the spec leaves as an
implementation choice). -/
structure TTLCacheModel where
  entries : List MemEntry
  maxsize : Nat
  ttl : Nat

/-- `key in memory_cache` / `memory_cache[key]` at time `now`: an entry
is returned only while it has not expired. -/
def TTLCacheModel.lookup (c : TTLCacheModel) (now : Nat) (key : Str) : Option Json :=
  match c.entries.find? (fun e => e.key == key) with
  | some e => if now < e.expireAt then some e.val else none
  | none => none

/-- `memory_cache[key] = data` at time `now`: replace any entry with the
same key, stamp the expiry `now + ttl`, and keep at most `maxsize`
entries. -/
def TTLCacheModel.insert (c : TTLCacheModel) (now : Nat) (key : Str) (v : Json) :
    TTLCacheModel :=
  { c with entries :=
      ⟨key, v, now + c.ttl⟩ ::
        ((c.entries.filter (fun e => ¬ e.key == key)).take (c.maxsize - 1)) }

/-- `memory_cache = TTLCache(maxsize=1000, ttl=600)` (`cache.py`
line 13), in its initial empty state. -/
def memory_cache : TTLCacheModel := ⟨[], 1000, 600⟩

/-- One Redis key as written by `SETEX key ttl value`: we record both
the `ttl` argument and the resulting absolute expiry. -/
structure RedisEntry where
  key : Str
  ttl : Nat
  expireAt : Nat
  val : Str

/-- A connected Redis client.  `failing = true` makes every subsequent
operation on it raise (modelling timeouts / connection loss after a
successful `__init__`). -/
structure RedisConn where
  store : List RedisEntry
  failing : Bool

/-- `RedisCache` (`cache.py` lines 42-57): namespace plus an optional
client (`None` when the URL is absent, the library is missing, or the
initial `ping` raised — all of which leave `self.client = None`). -/
structure RedisCache where
  ns : Str
  client : Option RedisConn

/-- `RedisCache.get` (`cache.py` lines 72-83): return `None` when no
client; inside `try`, build the key, `GET` it, and return
`json.loads(data) if data else None`; any exception is caught and
yields `None`.  `Json.null` is Python `None`, so a stored JSON `null`
is indistinguishable from a miss, exactly as in the source. -/
def RedisCache.get (ext : PyLibs) (rc : RedisCache) (now : Nat)
    (path : Str) (params : Params) : Json :=
  match rc.client with
  | none => Json.null
  | some c =>
    if c.failing then Json.null
    else
      match c.store.find? (fun e => e.key == make_key ext rc.ns path params) with
      | none => Json.null
      | some e =>
        if now < e.expireAt then
          if e.val ≠ [] then (ext.loads e.val).getD Json.null else Json.null
        else Json.null

/-- `RedisCache.set` (`cache.py` lines 85-97): no-op when no client;
inside `try`, `SETEX key ttl json.dumps(value)` with `ttl` from
`get_cache_settings(path)`; any exception is caught and the store is
left unchanged. -/
def RedisCache.set (ext : PyLibs) (rc : RedisCache) (now : Nat)
    (path : Str) (params : Params) (value : Json) : RedisCache :=
  match rc.client with
  | none => rc
  | some c =>
    if c.failing then rc
    else
      let key := make_key ext rc.ns path params
      let ttl := (get_cache_settings path).1
      let entry : RedisEntry := ⟨key, ttl, now + ttl, ext.dumps value⟩
      let c2 : RedisConn :=
        { c with store := entry :: c.store.filter (fun e => ¬ e.key == key) }
      { rc with client := some c2 }

/-- The module-level mutable state of `cache.py`: the in-memory tier
and the global `redis_cache` instance. -/
structure CacheState where
  memory : TTLCacheModel
  redis : RedisCache

/-- `redis_cache = RedisCache()` plus the empty `memory_cache`; the
client the constructor ended up with is a parameter (it depends on the
environment and the reachability of the server). -/
def initState (client : Option RedisConn) : CacheState :=
  ⟨memory_cache, ⟨S "f1", client⟩⟩

/-- `key = f"{path}:{hash(tuple(sorted(params.items())))}"`
(`cache.py` line 131): the in-memory key. -/
def localKey (ext : PyLibs) (path : Str) (params : Params) : Str :=
  path ++ ':' :: (toString (ext.pyhash (sortParams params))).data

/-- The lookup half of `fetch_with_cache` (`cache.py` lines 126-133):
Redis first (a non-`None` result is returned as-is), then the in-memory
tier. -/
def tierGet (ext : PyLibs) (st : CacheState) (now : Nat)
    (path : Str) (params : Params) : Option Json :=
  match RedisCache.get ext st.redis now path params with
  | Json.null => st.memory.lookup now (localKey ext path params)
  | v => some v

/-- The populate half of `fetch_with_cache` (`cache.py` lines 140-141):
store the fetched data in the in-memory tier and in Redis. -/
def tierPut (ext : PyLibs) (st : CacheState) (now : Nat)
    (path : Str) (params : Params) (data : Json) : CacheState :=
  ⟨st.memory.insert now (localKey ext path params) data,
   RedisCache.set ext st.redis now path params data⟩

/-- `fetch_with_cache` (`cache.py` lines 118-146).  The result carries
the value, the updated module state, and how many times `fetch_fn` was
invoked.  Note lines 144-146: an exception from `fetch_fn` is logged
and then re-`raise`d, hence the `Except.error` branch. -/
def fetch_with_cache (ext : PyLibs) (fetch_fn : Str → Params → Except String Json)
    (st : CacheState) (now : Nat) (path : Str) (params : Params) :
    Except String (Json × CacheState × Nat) :=
  match tierGet ext st now path params with
  | some v => Except.ok (v, st, 0)
  | none =>
    match fetch_fn path params with
    | Except.ok data => Except.ok (data, tierPut ext st now path params data, 1)
    | Except.error e => Except.error e

/-- `fetch_json` (`api.py` lines 15-39).  `http` models
`requests.get(...).raise_for_status()` followed by `response.json()`:
it raises (`Except.error`) on transport errors and non-2xx statuses,
or returns the decoded body.  Every exception is caught and mapped to
`[]`, and a non-list body is coerced to `[]`. -/
def fetch_json (http : Str → Params → Except String Json)
    (path : Str) (params : Params) : Json :=
  match http path params with
  | Except.error _ => Json.arr []
  | Except.ok data =>
    match data with
    | Json.arr xs => Json.arr xs
    | _ => Json.arr []

/-- `fetch_with_cache_json` (`api.py` lines 42-50): `fetch_with_cache`
applied to `fetch_json`; the lambda never raises. -/
def fetch_with_cache_json (ext : PyLibs) (http : Str → Params → Except String Json)
    (st : CacheState) (now : Nat) (path : Str) (params : Params) :
    Except String (Json × CacheState × Nat) :=
  fetch_with_cache ext (fun p kw => Except.ok (fetch_json http p kw)) st now path params

/-- `_parse_list` (`api.py` lines 53-78), with the per-model
`parse_obj` passed in as a function (`Except.error` is a pydantic
`ValidationError`).  The source's `for` loop appends successes to
`parsed_items` and counts failures in `errors`; this recursion builds
the same pair left to right.  The `if not data: return []` early exit
is the `[]` base case. -/
def _parse_list {β : Type} (parse : Json → Except String β) :
    List Json → List β × Nat
  | [] => ([], 0)
  | item :: rest =>
    let r := _parse_list parse rest
    match parse item with
    | Except.ok b => (b :: r.1, r.2)
    | Except.error _ => (r.1, r.2 + 1)

/-- Numeric value of a digit string (used by the `float(...)` model). -/
def natVal (cs : Str) : Nat :=
  cs.foldl (fun n c => 10 * n + (c.toNat - 48)) 0

/-- Modelled fragment of Python's `float(str)` (stdlib, external to the
repo): optional sign, decimal digits with at most one `.`, value as an
exact rational (Python's binary floats are idealized as `ℚ`).
Exponent/`inf`/`nan` forms are out of scope and rejected; on any
unparseable input the source's `float` raises, modelled as `none`. -/
def parseFloat (s : Str) : Option ℚ :=
  let sign : ℚ :=
    match s with
    | '-' :: _ => -1
    | _ => 1
  let body : Str :=
    match s with
    | '-' :: rest => rest
    | '+' :: rest => rest
    | _ => s
  match body.splitOn '.' with
  | [ip] =>
    if ip ≠ [] ∧ ip.all Char.isDigit then some (sign * (natVal ip : ℚ))
    else none
  | [ip, fp] =>
    if (ip ≠ [] ∨ fp ≠ []) ∧ ip.all Char.isDigit ∧ fp.all Char.isDigit then
      some (sign * ((natVal ip : ℚ) + (natVal fp : ℚ) / (10 : ℚ) ^ fp.length))
    else none
  | _ => none

/-- The scalar shapes `_convert_time_to_seconds` distinguishes:
`None`/`NaN` (caught by `pd.isna`), a numeric (`int`/`float`), a
string, or anything else. -/
inductive TimeVal where
  | none
  | num (q : ℚ)
  | str (s : Str)
  | other

/-- `_convert_time_to_seconds` (`api.py` lines 206-231): `None`/`NaN`
map to `None`; numerics pass through `float(...)`; a string containing
`:` is split, `parts[0]` and `parts[1]` parsed as floats and combined
as `minutes * 60 + seconds` (`ValueError`/`IndexError` are caught and
yield `None`); any other string goes through `float(...)`; other types
fall through to `None`. -/
def _convert_time_to_seconds : TimeVal → Option ℚ
  | TimeVal.none => Option.none
  | TimeVal.num q => some q
  | TimeVal.str s =>
    if ':' ∈ s then
      match s.splitOn ':' with
      | p0 :: p1 :: _ =>
        match parseFloat p0, parseFloat p1 with
        | some m, some sec => some (m * 60 + sec)
        | _, _ => Option.none
      | _ => Option.none
    else parseFloat s
  | TimeVal.other => Option.none

/-- Field lookup in a JSON object. -/
def Json.lookupField (fs : List (Str × Json)) (k : Str) : Option Json :=
  (fs.find? (fun f => f.1 == k)).map (fun f => f.2)

/-- Required `int` field of a pydantic model: absent → missing-field
error, non-numeric → type error (conservative fragment of pydantic v1
coercion: exact types only). -/
def getIntField (fs : List (Str × Json)) (k : Str) : Except String Int :=
  match Json.lookupField fs k with
  | some (Json.num n) => Except.ok n
  | some _ => Except.error "type mismatch"
  | none => Except.error "field required"

/-- Required `str` field of a pydantic model. -/
def getStrField (fs : List (Str × Json)) (k : Str) : Except String Str :=
  match Json.lookupField fs k with
  | some (Json.str s) => Except.ok s
  | some _ => Except.error "type mismatch"
  | none => Except.error "field required"

/-- `class Stint(BaseModel)` (`models.py` lines 73-80): all seven
fields required. -/
structure Stint where
  session_key : Int
  driver_number : Int
  stint_number : Int
  compound : Str
  lap_start : Int
  lap_end : Int
  tyre_age_at_start : Int

/-- `Stint.parse_obj(item)`: construct a `Stint` from a raw JSON
object, failing on a missing required field or a type mismatch (the
per-record failure mode `_parse_list` catches). -/
def Stint.parse_obj (j : Json) : Except String Stint :=
  match j with
  | Json.obj fs => do
    let sk ← getIntField fs (S "session_key")
    let dn ← getIntField fs (S "driver_number")
    let sn ← getIntField fs (S "stint_number")
    let cp ← getStrField fs (S "compound")
    let ls ← getIntField fs (S "lap_start")
    let le ← getIntField fs (S "lap_end")
    let ty ← getIntField fs (S "tyre_age_at_start")
    pure ⟨sk, dn, sn, cp, ls, le, ty⟩
  | _ => Except.error "not an object"

/-- A well-formed raw stint object with stint number `i`. -/
def goodStint (i : Int) : Json :=
  Json.obj
    [(S "session_key", Json.num 9222),
     (S "driver_number", Json.num 1),
     (S "stint_number", Json.num i),
     (S "compound", Json.str (S "SOFT")),
     (S "lap_start", Json.num 1),
     (S "lap_end", Json.num 10),
     (S "tyre_age_at_start", Json.num 0)]

/-- A raw stint object missing the required `compound` field. -/
def badStint (i : Int) : Json :=
  Json.obj
    [(S "session_key", Json.num 9222),
     (S "driver_number", Json.num 1),
     (S "stint_number", Json.num i),
     (S "lap_start", Json.num 1),
     (S "lap_end", Json.num 10),
     (S "tyre_age_at_start", Json.num 0)]

/-- Ten raw objects of which two (`badStint`) are missing a required
field — the batch from the spec's partial-failure property. -/
def tenStints : List Json :=
  [goodStint 1, goodStint 2, badStint 3, goodStint 4, goodStint 5,
   badStint 6, goodStint 7, goodStint 8, goodStint 9, goodStint 10]

/-- A concrete instantiation of the external collaborators, for closed
instances: the serializer maps everything to `"[]"` and the loader
parses only `"[]"`, which round-trips the empty list. -/
def extDefault : PyLibs :=
  ⟨fun _ => [], fun _ => 0, fun _ => S "[]",
   fun s => if s = S "[]" then some (Json.arr []) else none⟩

/-- Sorting is a function of the multiset of pairs: permuted inputs
sort to the same list (the tuple order is total and antisymmetric). -/
theorem sortParams_perm_eq {p₁ p₂ : Params} (h : p₁.Perm p₂) :
    sortParams p₁ = sortParams p₂ :=
  List.eq_of_perm_of_sorted
    (((List.perm_insertionSort pairLe p₁).trans h).trans
      (List.perm_insertionSort pairLe p₂).symm)
    (List.sorted_insertionSort pairLe p₁)
    (List.sorted_insertionSort pairLe p₂)

/-- C3: for every endpoint and every pair of parameter mappings with
exactly the same key/value pairs in any order, `_make_key` produces the
same Redis key and `fetch_with_cache` derives the same local in-memory
key. -/
theorem make_key_order_independent (ext : PyLibs) (ns path : Str)
    (p₁ p₂ : Params) (h : p₁.Perm p₂) :
    make_key ext ns path p₁ = make_key ext ns path p₂ ∧
      localKey ext path p₁ = localKey ext path p₂ := by
  have hs : sortParams p₁ = sortParams p₂ := sortParams_perm_eq h
  refine ⟨?_, ?_⟩
  · unfold make_key keyStr paramStr
    rw [hs]
  · unfold localKey
    rw [hs]

/-- Witness for C3 at a concrete permuted pair of parameter mappings. -/
theorem make_key_order_independent_witness :
    ([(S "driver_number", S "1"), (S "session_key", S "9222")] : Params).Perm
        [(S "session_key", S "9222"), (S "driver_number", S "1")] ∧
      make_key extDefault (S "f1") (S "laps")
          [(S "driver_number", S "1"), (S "session_key", S "9222")] =
        make_key extDefault (S "f1") (S "laps")
          [(S "session_key", S "9222"), (S "driver_number", S "1")] ∧
      localKey extDefault (S "laps")
          [(S "driver_number", S "1"), (S "session_key", S "9222")] =
        localKey extDefault (S "laps")
          [(S "session_key", S "9222"), (S "driver_number", S "1")] := by
  refine ⟨by decide, ?_⟩
  exact make_key_order_independent extDefault (S "f1") (S "laps") _ _ (by decide)

/-- Counterexample to C4: two distinct parameter sets — `{"a": "1&b="}`
versus `{"a": "1", "b": ""}` — collide to the same `_make_key` output,
because parameter values may contain the separator characters `&` and
`=` that the key concatenation uses. -/
theorem make_key_collision :
    make_key extDefault (S "f1") (S "laps") [(S "a", S "1&b=")] =
        make_key extDefault (S "f1") (S "laps") [(S "a", S "1"), (S "b", [])] ∧
      ¬ ([(S "a", S "1&b=")] : Params).Perm [(S "a", S "1"), (S "b", [])] := by
  constructor
  · decide
  · decide

/-- Splitting a string at a separator character that occurs in neither
prefix is unambiguous. -/
theorem sep_split_inj {x : Char} {a b c d : Str} (ha : x ∉ a) (hc : x ∉ c)
    (h : a ++ x :: b = c ++ x :: d) : a = c ∧ b = d := by
  induction a generalizing c with
  | nil =>
    cases c with
    | nil => simpa using h
    | cons z c2 =>
      exfalso
      simp only [List.nil_append, List.cons_append, List.cons.injEq] at h
      exact hc (h.1 ▸ List.mem_cons_self z c2)
  | cons y a2 ih =>
    cases c with
    | nil =>
      exfalso
      simp only [List.nil_append, List.cons_append, List.cons.injEq] at h
      exact ha (h.1.symm ▸ List.mem_cons_self y a2)
    | cons z c2 =>
      simp only [List.cons_append, List.cons.injEq] at h
      obtain ⟨rfl, h2⟩ := h
      have ha2 : x ∉ a2 := fun hm => ha (List.mem_cons_of_mem _ hm)
      have hc2 : x ∉ c2 := fun hm => hc (List.mem_cons_of_mem _ hm)
      obtain ⟨rfl, rfl⟩ := ih ha2 hc2 h2
      exact ⟨rfl, rfl⟩

/-- `f"{k}={v}"` is injective on pairs whose keys avoid `=`. -/
theorem encPair_inj {kv kw : Str × Str} (h1 : '=' ∉ kv.1) (h2 : '=' ∉ kw.1)
    (h : encPair kv = encPair kw) : kv = kw := by
  obtain ⟨k, v⟩ := kv
  obtain ⟨k2, v2⟩ := kw
  obtain ⟨rfl, rfl⟩ := sep_split_inj h1 h2 h
  rfl

/-- Mapping the pair encoder over lists of clean-keyed pairs is
injective. -/
theorem map_encPair_inj {l₁ l₂ : Params}
    (h1 : ∀ kv ∈ l₁, '=' ∉ kv.1) (h2 : ∀ kv ∈ l₂, '=' ∉ kv.1)
    (h : l₁.map encPair = l₂.map encPair) : l₁ = l₂ := by
  induction l₁ generalizing l₂ with
  | nil =>
    cases l₂ with
    | nil => rfl
    | cons kw l2 => simp at h
  | cons kv l ih =>
    cases l₂ with
    | nil => simp at h
    | cons kw l2 =>
      simp only [List.map_cons, List.cons.injEq] at h
      have hkv : kv = kw :=
        encPair_inj (h1 kv (List.mem_cons_self kv l)) (h2 kw (List.mem_cons_self kw l2)) h.1
      have hrest : l = l2 :=
        ih (fun a ha => h1 a (List.mem_cons_of_mem _ ha))
          (fun a ha => h2 a (List.mem_cons_of_mem _ ha)) h.2
      rw [hkv, hrest]

/-- The encoding of one parameter never contains `&` when neither key
nor value does. -/
theorem encPair_amp_free {kv : Str × Str} (hk : '&' ∉ kv.1) (hv : '&' ∉ kv.2) :
    '&' ∉ encPair kv := by
  intro hm
  simp only [encPair, List.mem_append, List.mem_cons] at hm
  rcases hm with h | h | h
  · exact hk h
  · exact absurd h (by decide)
  · exact hv h

/-- The joined parameter string is empty exactly for the empty
parameter set. -/
theorem paramStr_eq_nil_iff (p : Params) : paramStr p = [] ↔ p = [] := by
  constructor
  · intro h
    by_contra hp
    have hsp : sortParams p ≠ [] := by
      intro hs
      have hperm : (sortParams p).Perm p := List.perm_insertionSort pairLe p
      rw [hs] at hperm
      exact hp hperm.nil_eq.symm
    obtain ⟨kv, rest, hk⟩ := List.exists_cons_of_ne_nil hsp
    rw [paramStr, hk] at h
    cases rest with
    | nil =>
      simp only [List.map_cons, List.map_nil, List.intercalate, List.intersperse,
        List.flatten] at h
      have : (encPair kv).length = 0 := by
        have := congrArg List.length h
        simpa using this
      simp [encPair] at this
    | cons kw rest2 =>
      simp only [List.map_cons, List.intercalate, List.intersperse_cons_cons,
        List.flatten] at h
      have := congrArg List.length h
      simp [encPair] at this
  · intro h
    subst h
    rfl

/-- Core of amended C4: if the two derived keys agree, neither key
string was long enough to be digest-hashed, and all parameter keys and
values avoid the separator characters `&` and `=`, then the two
parameter sets are equal as sets of pairs. -/
theorem make_key_eq_imp_perm (ext : PyLibs) (ns path : Str) {p₁ p₂ : Params}
    (hc1 : ∀ kv ∈ p₁, '&' ∉ kv.1 ∧ '=' ∉ kv.1 ∧ '&' ∉ kv.2 ∧ '=' ∉ kv.2)
    (hc2 : ∀ kv ∈ p₂, '&' ∉ kv.1 ∧ '=' ∉ kv.1 ∧ '&' ∉ kv.2 ∧ '=' ∉ kv.2)
    (hl1 : (keyStr path p₁).length ≤ 200)
    (hl2 : (keyStr path p₂).length ≤ 200)
    (h : make_key ext ns path p₁ = make_key ext ns path p₂) : p₁.Perm p₂ := by
  rw [make_key, make_key, if_neg (by omega), if_neg (by omega)] at h
  have hks : keyStr path p₁ = keyStr path p₂ := by
    have h2 := List.append_cancel_left h
    exact List.tail_eq_of_cons_eq h2
  by_cases e1 : paramStr p₁ = []
  · by_cases e2 : paramStr p₂ = []
    · rw [(paramStr_eq_nil_iff p₁).mp e1, (paramStr_eq_nil_iff p₂).mp e2]
    · exfalso
      rw [keyStr, keyStr, if_neg (not_not_intro e1), if_pos e2] at hks
      have := congrArg List.length hks
      simp [List.length_append] at this
  · by_cases e2 : paramStr p₂ = []
    · exfalso
      rw [keyStr, keyStr, if_pos e1, if_neg (not_not_intro e2)] at hks
      have := congrArg List.length hks
      simp [List.length_append] at this
    · rw [keyStr, keyStr, if_pos e1, if_pos e2] at hks
      have hs : paramStr p₁ = paramStr p₂ :=
        List.tail_eq_of_cons_eq (List.append_cancel_left hks)
      have m1 : ∀ l ∈ (sortParams p₁).map encPair, '&' ∉ l := by
        intro l hl
        obtain ⟨kv, hkv, rfl⟩ := List.mem_map.mp hl
        obtain ⟨a1, _, a3, _⟩ := hc1 kv ((List.mem_insertionSort pairLe).mp hkv)
        exact encPair_amp_free a1 a3
      have m2 : ∀ l ∈ (sortParams p₂).map encPair, '&' ∉ l := by
        intro l hl
        obtain ⟨kv, hkv, rfl⟩ := List.mem_map.mp hl
        obtain ⟨a1, _, a3, _⟩ := hc2 kv ((List.mem_insertionSort pairLe).mp hkv)
        exact encPair_amp_free a1 a3
      have n1 : (sortParams p₁).map encPair ≠ [] := by
        have hp1 : p₁ ≠ [] := fun hh => e1 ((paramStr_eq_nil_iff p₁).mpr hh)
        simp only [ne_eq, List.map_eq_nil_iff]
        intro hh
        have hperm : (sortParams p₁).Perm p₁ := List.perm_insertionSort pairLe p₁
        rw [hh] at hperm
        exact hp1 hperm.nil_eq.symm
      have n2 : (sortParams p₂).map encPair ≠ [] := by
        have hp2 : p₂ ≠ [] := fun hh => e2 ((paramStr_eq_nil_iff p₂).mpr hh)
        simp only [ne_eq, List.map_eq_nil_iff]
        intro hh
        have hperm : (sortParams p₂).Perm p₂ := List.perm_insertionSort pairLe p₂
        rw [hh] at hperm
        exact hp2 hperm.nil_eq.symm
      have r1 := List.splitOn_intercalate _ '&' m1 n1
      have r2 := List.splitOn_intercalate _ '&' m2 n2
      have hmap : (sortParams p₁).map encPair = (sortParams p₂).map encPair := by
        rw [← r1, ← r2]
        exact congrArg (fun l => l.splitOn '&') hs
      have k1 : ∀ kv ∈ sortParams p₁, '=' ∉ kv.1 := fun kv hkv =>
        (hc1 kv ((List.mem_insertionSort pairLe).mp hkv)).2.1
      have k2 : ∀ kv ∈ sortParams p₂, '=' ∉ kv.1 := fun kv hkv =>
        (hc2 kv ((List.mem_insertionSort pairLe).mp hkv)).2.1
      have hsorted : sortParams p₁ = sortParams p₂ := map_encPair_inj k1 k2 hmap
      have g1 : p₁.Perm (sortParams p₁) := (List.perm_insertionSort pairLe p₁).symm
      have g2 : (sortParams p₂).Perm p₂ := List.perm_insertionSort pairLe p₂
      rw [hsorted] at g1
      exact g1.trans g2

/-- C4 (amended): for parameter sets whose keys and values avoid the
separator characters `&` and `=`, and whose derived key strings stay
within the 200-character limit (so no digest truncation), distinct
parameter sets produce distinct `_make_key` outputs. -/
theorem make_key_injective_on_clean_params (ext : PyLibs) (ns path : Str)
    (p₁ p₂ : Params)
    (hc1 : ∀ kv ∈ p₁, '&' ∉ kv.1 ∧ '=' ∉ kv.1 ∧ '&' ∉ kv.2 ∧ '=' ∉ kv.2)
    (hc2 : ∀ kv ∈ p₂, '&' ∉ kv.1 ∧ '=' ∉ kv.1 ∧ '&' ∉ kv.2 ∧ '=' ∉ kv.2)
    (hl1 : (keyStr path p₁).length ≤ 200)
    (hl2 : (keyStr path p₂).length ≤ 200)
    (hne : ¬ p₁.Perm p₂) :
    make_key ext ns path p₁ ≠ make_key ext ns path p₂ :=
  fun h => hne (make_key_eq_imp_perm ext ns path hc1 hc2 hl1 hl2 h)

/-- Witness for amended C4 at concrete distinct parameter sets. -/
theorem make_key_injective_on_clean_params_witness :
    make_key extDefault (S "f1") (S "laps") [(S "session_key", S "9222")] ≠
      make_key extDefault (S "f1") (S "laps") [] :=
  make_key_injective_on_clean_params extDefault (S "f1") (S "laps")
    [(S "session_key", S "9222")] [] (by decide) (by decide) (by decide)
    (by decide) (by decide)

/-- Inserting into the in-memory tier and looking the key up before its
TTL elapses returns the stored value. -/
theorem TTLCacheModel.lookup_insert (c : TTLCacheModel) (now now2 : Nat)
    (key : Str) (v : Json) (h : now2 < now + c.ttl) :
    (c.insert now key v).lookup now2 key = some v := by
  unfold TTLCacheModel.insert TTLCacheModel.lookup
  simp [List.find?, h]

/-- Every endpoint policy, including the default, has a positive TTL. -/
theorem get_cache_settings_ttl_pos (ep : Str) : 0 < (get_cache_settings ep).1 := by
  unfold get_cache_settings
  cases hf : CACHE_SETTINGS.find? (fun e => e.1 == ep) with
  | none => decide
  | some e =>
    have hm := List.mem_of_find?_eq_some hf
    have hall : ∀ x ∈ CACHE_SETTINGS, 0 < x.2.1 := by decide
    exact hall e hm

/-- C7: a `put` (the populate step of `fetch_with_cache`) immediately
followed by the cached-lookup step for the same key returns the stored
value, given that the serializer round-trips it (`json.loads ∘
json.dumps = id` on JSON values), the serialized form is non-empty, and
the in-memory TTL is positive; this holds for every external-tier state
(reachable, absent, or failing), the hit being served by Redis after
its serialize/deserialize round trip or by the local tier. -/
theorem put_then_get_roundtrip (ext : PyLibs) (st : CacheState) (now : Nat)
    (path : Str) (params : Params) (v : Json)
    (hrt : ext.loads (ext.dumps v) = some v)
    (hne : ext.dumps v ≠ [])
    (httl : 0 < st.memory.ttl) :
    tierGet ext (tierPut ext st now path params v) now path params = some v := by
  have hmem : (st.memory.insert now (localKey ext path params) v).lookup now
      (localKey ext path params) = some v :=
    TTLCacheModel.lookup_insert _ _ _ _ _ (by omega)
  unfold tierGet tierPut
  cases hcl : st.redis.client with
  | none =>
    simp only [RedisCache.set, hcl, RedisCache.get]
    cases v <;> simp [hmem]
  | some conn =>
    cases hf : conn.failing with
    | true =>
      simp only [RedisCache.set, hcl, hf, RedisCache.get, if_true]
      cases v <;> simp [hmem]
    | false =>
      have hpos : now < now + (get_cache_settings path).1 := by
        have := get_cache_settings_ttl_pos path
        omega
      simp only [RedisCache.set, hcl, hf, RedisCache.get, Bool.false_eq_true,
        if_false, List.find?, beq_self_eq_true]
      rw [if_pos hpos, if_pos hne, hrt]
      cases v <;> simp [hmem]

/-- Witness for C7 at a concrete state with a live Redis client. -/
theorem put_then_get_roundtrip_witness :
    tierGet extDefault
        (tierPut extDefault (initState (some ⟨[], false⟩)) 0 (S "laps")
          [(S "session_key", S "9222")] (Json.arr []))
        0 (S "laps") [(S "session_key", S "9222")] = some (Json.arr []) :=
  put_then_get_roundtrip extDefault (initState (some ⟨[], false⟩)) 0 (S "laps")
    [(S "session_key", S "9222")] (Json.arr []) rfl (by decide) (by decide)

/-- C2: with the external tier failing on every operation, `RedisCache.get`
returns `None` and `RedisCache.set` leaves everything unchanged (both
swallow the exception), a locally cached value is still served by
`fetch_with_cache`, and `fetch_with_cache` raises only if its upstream
function does — no exception originating from the external tier
escapes. -/
theorem redis_failure_degrades_to_local (ext : PyLibs) (st : CacheState)
    (now : Nat) (path : Str) (params : Params) (conn : RedisConn)
    (fetch_fn : Str → Params → Except String Json) (v w d : Json)
    (hc : st.redis.client = some conn) (hf : conn.failing = true) :
    RedisCache.get ext st.redis now path params = Json.null ∧
    RedisCache.set ext st.redis now path params w = st.redis ∧
    (st.memory.lookup now (localKey ext path params) = some v →
      fetch_with_cache ext fetch_fn st now path params = Except.ok (v, st, 0)) ∧
    (fetch_fn path params = Except.ok d →
      ∃ r, fetch_with_cache ext fetch_fn st now path params = Except.ok r) := by
  have hget : RedisCache.get ext st.redis now path params = Json.null := by
    simp [RedisCache.get, hc, hf]
  have hset : RedisCache.set ext st.redis now path params w = st.redis := by
    simp [RedisCache.set, hc, hf]
  refine ⟨hget, hset, ?_, ?_⟩
  · intro hmem
    unfold fetch_with_cache tierGet
    rw [hget, hmem]
  · intro hfd
    unfold fetch_with_cache tierGet
    rw [hget]
    cases hm : st.memory.lookup now (localKey ext path params) with
    | some u => exact ⟨(u, st, 0), rfl⟩
    | none => rw [hfd]; exact ⟨_, rfl⟩

/-- Witness for C2: a failing client, a locally cached value, and an
upstream that succeeds. -/
theorem redis_failure_degrades_to_local_witness :
    RedisCache.get extDefault (⟨S "f1", some ⟨[], true⟩⟩ : RedisCache) 0
        (S "laps") [] = Json.null ∧
    RedisCache.set extDefault (⟨S "f1", some ⟨[], true⟩⟩ : RedisCache) 0
        (S "laps") [] (Json.arr []) = ⟨S "f1", some ⟨[], true⟩⟩ ∧
    (fetch_with_cache extDefault (fun _ _ => Except.error "down")
        ⟨⟨[⟨localKey extDefault (S "laps") [], Json.arr [], 600⟩], 1000, 600⟩,
          ⟨S "f1", some ⟨[], true⟩⟩⟩
        0 (S "laps") [] =
      Except.ok (Json.arr [],
        ⟨⟨[⟨localKey extDefault (S "laps") [], Json.arr [], 600⟩], 1000, 600⟩,
          ⟨S "f1", some ⟨[], true⟩⟩⟩, 0)) := by
  refine ⟨?_, ?_, ?_⟩
  · exact (redis_failure_degrades_to_local extDefault
      ⟨⟨[], 1000, 600⟩, ⟨S "f1", some ⟨[], true⟩⟩⟩ 0 (S "laps") [] ⟨[], true⟩
      (fun _ _ => Except.error "down") Json.null (Json.arr []) Json.null
      rfl rfl).1
  · exact (redis_failure_degrades_to_local extDefault
      ⟨⟨[], 1000, 600⟩, ⟨S "f1", some ⟨[], true⟩⟩⟩ 0 (S "laps") [] ⟨[], true⟩
      (fun _ _ => Except.error "down") Json.null (Json.arr []) Json.null
      rfl rfl).2.1
  · exact (redis_failure_degrades_to_local extDefault
      ⟨⟨[⟨localKey extDefault (S "laps") [], Json.arr [], 600⟩], 1000, 600⟩,
        ⟨S "f1", some ⟨[], true⟩⟩⟩ 0 (S "laps") [] ⟨[], true⟩
      (fun _ _ => Except.error "down") (Json.arr []) (Json.arr []) Json.null
      rfl rfl).2.2.1 (by simp [TTLCacheModel.lookup, List.find?])

/-- Counterexample to C5: a `put` for the `meetings` endpoint writes the
external tier with the 24-hour policy TTL, but the in-memory entry for
the same `put` expires after the global default 600 seconds — the local
tier does not follow the per-endpoint policy TTL. -/
theorem tierPut_local_ttl_mismatch :
    (get_cache_settings (S "meetings")).1 = 86400 ∧
    ((tierPut extDefault (initState (some ⟨[], false⟩)) 0 (S "meetings") []
        (Json.arr [])).redis.client.map (fun c => c.store.map (fun e => e.ttl)))
      = some [86400] ∧
    (tierPut extDefault (initState (some ⟨[], false⟩)) 0 (S "meetings") []
        (Json.arr [])).memory.entries.map (fun e => e.expireAt) = [600] ∧
    (600 : Nat) ≠ 86400 := by
  refine ⟨by decide, by decide, by decide, by decide⟩

/-- C5 (amended): every `put` writes the external tier with exactly the
policy-table TTL for the endpoint, while the in-memory entry of the
same `put` always expires after the memory cache's own fixed TTL
(600 seconds in the shipped module), regardless of the endpoint. -/
theorem tierPut_ttls (ext : PyLibs) (st : CacheState) (now : Nat)
    (path : Str) (params : Params) (v : Json) (conn : RedisConn)
    (hc : st.redis.client = some conn) (hf : conn.failing = false) :
    (∃ c2, (tierPut ext st now path params v).redis.client = some c2 ∧
        c2.store.head? = some ⟨make_key ext st.redis.ns path params,
          (get_cache_settings path).1, now + (get_cache_settings path).1,
          ext.dumps v⟩) ∧
    (tierPut ext st now path params v).memory.entries.head? =
      some ⟨localKey ext path params, v, now + st.memory.ttl⟩ := by
  constructor
  · simp only [tierPut, RedisCache.set, hc, hf, Bool.false_eq_true, if_false]
    exact ⟨_, rfl, rfl⟩
  · rfl

/-- Witness for amended C5: a concrete `put` on `meetings` with a live
client. -/
theorem tierPut_ttls_witness :
    (∃ c2, (tierPut extDefault (initState (some ⟨[], false⟩)) 0 (S "meetings")
        [] (Json.arr [])).redis.client = some c2 ∧
        c2.store.head? = some ⟨make_key extDefault (S "f1") (S "meetings") [],
          (get_cache_settings (S "meetings")).1,
          0 + (get_cache_settings (S "meetings")).1,
          extDefault.dumps (Json.arr [])⟩) ∧
    (tierPut extDefault (initState (some ⟨[], false⟩)) 0 (S "meetings") []
        (Json.arr [])).memory.entries.head? =
      some ⟨localKey extDefault (S "meetings") [], Json.arr [], 0 + 600⟩ :=
  tierPut_ttls extDefault (initState (some ⟨[], false⟩)) 0 (S "meetings") []
    (Json.arr []) ⟨[], false⟩ rfl rfl

/-- C6: the cached-lookup step consults Redis first — a non-`None`
Redis result is returned with no upstream call and unchanged state,
whatever the local tier holds; only on a Redis miss is the local tier
consulted, a local hit likewise returned without calling upstream; and
on a miss in both tiers the upstream result is stored in the local tier
and in Redis (`tierPut`) before being returned. -/
theorem fetch_with_cache_tier_order (ext : PyLibs)
    (fetch_fn : Str → Params → Except String Json) (st : CacheState)
    (now : Nat) (path : Str) (params : Params) :
    (∀ v : Json, RedisCache.get ext st.redis now path params = v →
      v ≠ Json.null →
      fetch_with_cache ext fetch_fn st now path params = Except.ok (v, st, 0)) ∧
    (∀ v : Json, RedisCache.get ext st.redis now path params = Json.null →
      st.memory.lookup now (localKey ext path params) = some v →
      fetch_with_cache ext fetch_fn st now path params = Except.ok (v, st, 0)) ∧
    (∀ d : Json, RedisCache.get ext st.redis now path params = Json.null →
      st.memory.lookup now (localKey ext path params) = none →
      fetch_fn path params = Except.ok d →
      fetch_with_cache ext fetch_fn st now path params =
        Except.ok (d, tierPut ext st now path params d, 1)) := by
  refine ⟨?_, ?_, ?_⟩
  · intro v hv hne
    unfold fetch_with_cache tierGet
    rw [hv]
    cases v
    · exact absurd rfl hne
    · rfl
    · rfl
    · rfl
    · rfl
    · rfl
  · intro v hred hmem
    unfold fetch_with_cache tierGet
    rw [hred, hmem]
  · intro d hred hmem hfd
    unfold fetch_with_cache tierGet
    rw [hred, hmem, hfd]

/-- A state whose Redis tier holds `[]` under the key for
`("laps", {})`. -/
def redisHitState : CacheState :=
  ⟨⟨[], 1000, 600⟩,
   ⟨S "f1", some ⟨[⟨make_key extDefault (S "f1") (S "laps") [], 600, 600, S "[]"⟩],
     false⟩⟩⟩

/-- A state with no Redis client whose local tier holds `[]` under the
local key for `("laps", {})`. -/
def localHitState : CacheState :=
  ⟨⟨[⟨localKey extDefault (S "laps") [], Json.arr [], 600⟩], 1000, 600⟩,
   ⟨S "f1", none⟩⟩

/-- Witness for C6: a Redis hit, a local hit, and a double miss, each
at concrete states. -/
theorem fetch_with_cache_tier_order_witness :
    fetch_with_cache extDefault (fun _ _ => Except.ok (Json.num 7)) redisHitState
        0 (S "laps") [] = Except.ok (Json.arr [], redisHitState, 0) ∧
    fetch_with_cache extDefault (fun _ _ => Except.ok (Json.num 7)) localHitState
        0 (S "laps") [] = Except.ok (Json.arr [], localHitState, 0) ∧
    fetch_with_cache extDefault (fun _ _ => Except.ok (Json.num 7))
        (initState none) 0 (S "laps") [] =
      Except.ok (Json.num 7,
        tierPut extDefault (initState none) 0 (S "laps") [] (Json.num 7), 1) := by
  refine ⟨?_, ?_, ?_⟩
  · exact (fetch_with_cache_tier_order extDefault (fun _ _ => Except.ok (Json.num 7))
      redisHitState 0 (S "laps") []).1 (Json.arr []) rfl (fun h => Json.noConfusion h)
  · exact (fetch_with_cache_tier_order extDefault (fun _ _ => Except.ok (Json.num 7))
      localHitState 0 (S "laps") []).2.1 (Json.arr []) rfl rfl
  · exact (fetch_with_cache_tier_order extDefault (fun _ _ => Except.ok (Json.num 7))
      (initState none) 0 (S "laps") []).2.2 (Json.num 7) rfl rfl rfl

/-- Counterexample to C1: an upstream function that raises when invoked
has its exception propagated by `fetch_with_cache` (the `raise` on
line 146 of `cache.py`), rather than being converted to `[]`. -/
theorem fetch_with_cache_propagates :
    fetch_with_cache extDefault (fun _ _ => Except.error "boom")
        (initState none) 0 (S "laps") [] = Except.error "boom" := rfl

/-- `fetch_json` maps every upstream failure — a raising HTTP call or a
non-list body — to `[]` (`api.py` lines 26-39). -/
theorem fetch_json_eq_empty {http : Str → Params → Except String Json}
    {path : Str} {params : Params}
    (hfail : ∀ xs, http path params ≠ Except.ok (Json.arr xs)) :
    fetch_json http path params = Json.arr [] := by
  unfold fetch_json
  cases hh : http path params with
  | error e => rfl
  | ok j =>
    cases j
    · rfl
    · rfl
    · rfl
    · rfl
    · exact absurd hh (hfail _)
    · rfl

/-- C1 (amended): when the tiered-cache lookup misses and the upstream
HTTP call fails (raises, or returns a non-list body), the composed
fetch — `fetch_with_cache` over `fetch_json`, which catches those
failures internally and returns `[]` — yields the empty list and
caches it, and the composed fetch never propagates an exception in any
state; `fetch_with_cache` itself, however, re-raises exceptions thrown
directly by its `fetch_fn` argument. -/
theorem fetch_with_cache_json_error_to_empty (ext : PyLibs)
    (http : Str → Params → Except String Json) (st : CacheState)
    (now : Nat) (path : Str) (params : Params)
    (hmiss : tierGet ext st now path params = none)
    (hfail : ∀ xs, http path params ≠ Except.ok (Json.arr xs)) :
    fetch_with_cache_json ext http st now path params =
      Except.ok (Json.arr [], tierPut ext st now path params (Json.arr []), 1) ∧
    ∀ (http2 : Str → Params → Except String Json) (st2 : CacheState)
      (now2 : Nat) (path2 : Str) (params2 : Params),
      ∃ r, fetch_with_cache_json ext http2 st2 now2 path2 params2 =
        Except.ok r := by
  constructor
  · have hfj := fetch_json_eq_empty hfail
    unfold fetch_with_cache_json fetch_with_cache
    rw [hmiss]
    simp only [hfj]
  · intro http2 st2 now2 path2 params2
    unfold fetch_with_cache_json fetch_with_cache
    cases tierGet ext st2 now2 path2 params2 with
    | some v => exact ⟨(v, st2, 0), rfl⟩
    | none => exact ⟨_, rfl⟩

/-- Witness for amended C1: a cold cache and an HTTP layer that always
raises. -/
theorem fetch_with_cache_json_error_to_empty_witness :
    fetch_with_cache_json extDefault (fun _ _ => Except.error "timeout")
        (initState none) 0 (S "laps") [] =
      Except.ok (Json.arr [],
        tierPut extDefault (initState none) 0 (S "laps") [] (Json.arr []), 1) :=
  (fetch_with_cache_json_error_to_empty extDefault
    (fun _ _ => Except.error "timeout") (initState none) 0 (S "laps") [] rfl
    (fun _ h => Except.noConfusion h)).1

/-- After a populate at time `now`, the cached-lookup at any later time
still inside the local entry's TTL window returns the stored value (from
Redis while the Redis entry is fresh, else from the local tier). -/
theorem tierGet_tierPut (ext : PyLibs) (st : CacheState) (now now2 : Nat)
    (path : Str) (params : Params) (v : Json)
    (hrt : ext.loads (ext.dumps v) = some v)
    (hne : ext.dumps v ≠ [])
    (hfresh : now2 < now + st.memory.ttl) :
    tierGet ext (tierPut ext st now path params v) now2 path params = some v := by
  have hmem : (st.memory.insert now (localKey ext path params) v).lookup now2
      (localKey ext path params) = some v :=
    TTLCacheModel.lookup_insert _ _ _ _ _ hfresh
  unfold tierGet tierPut
  cases hcl : st.redis.client with
  | none =>
    simp only [RedisCache.set, hcl, RedisCache.get]
    cases v <;> simp [hmem]
  | some conn =>
    cases hf : conn.failing with
    | true =>
      simp only [RedisCache.set, hcl, hf, RedisCache.get, if_true]
      cases v <;> simp [hmem]
    | false =>
      simp only [RedisCache.set, hcl, hf, RedisCache.get, Bool.false_eq_true,
        if_false, List.find?, beq_self_eq_true]
      by_cases hp : now2 < now + (get_cache_settings path).1
      · rw [if_pos hp, if_pos hne, hrt]
        cases v <;> simp [hmem]
      · rw [if_neg hp]
        simp [hmem]

/-- C10: when the upstream HTTP call fails (raises or returns a
non-list body) on a double cache miss, the resulting `[]` is itself
written to both tiers, and every subsequent fetch for the same
`(endpoint, params)` within the entry's TTL window — with any upstream
function, including one that would now succeed — returns `[]` from
cache with zero upstream invocations. -/
theorem empty_result_negative_caching (ext : PyLibs)
    (http fetch2 : Str → Params → Except String Json)
    (st : CacheState) (now now2 : Nat) (path : Str) (params : Params)
    (hmiss : tierGet ext st now path params = none)
    (hfail : ∀ xs, http path params ≠ Except.ok (Json.arr xs))
    (hrt : ext.loads (ext.dumps (Json.arr [])) = some (Json.arr []))
    (hne : ext.dumps (Json.arr []) ≠ [])
    (hfresh : now2 < now + st.memory.ttl) :
    fetch_with_cache_json ext http st now path params =
      Except.ok (Json.arr [], tierPut ext st now path params (Json.arr []), 1) ∧
    fetch_with_cache ext fetch2 (tierPut ext st now path params (Json.arr []))
        now2 path params =
      Except.ok (Json.arr [],
        tierPut ext st now path params (Json.arr []), 0) := by
  constructor
  · have hfj := fetch_json_eq_empty hfail
    unfold fetch_with_cache_json fetch_with_cache
    rw [hmiss]
    simp only [hfj]
  · have hg := tierGet_tierPut ext st now now2 path params (Json.arr []) hrt hne hfresh
    unfold fetch_with_cache
    rw [hg]

/-- Witness for C10: first fetch fails upstream and caches `[]`; a
second fetch one second later with a succeeding upstream serves `[]`
from cache with zero upstream calls. -/
theorem empty_result_negative_caching_witness :
    fetch_with_cache_json extDefault (fun _ _ => Except.error "timeout")
        (initState none) 0 (S "laps") [] =
      Except.ok (Json.arr [],
        tierPut extDefault (initState none) 0 (S "laps") [] (Json.arr []), 1) ∧
    fetch_with_cache extDefault (fun _ _ => Except.ok (Json.num 7))
        (tierPut extDefault (initState none) 0 (S "laps") [] (Json.arr []))
        1 (S "laps") [] =
      Except.ok (Json.arr [],
        tierPut extDefault (initState none) 0 (S "laps") [] (Json.arr []), 0) :=
  empty_result_negative_caching extDefault (fun _ _ => Except.error "timeout")
    (fun _ _ => Except.ok (Json.num 7)) (initState none) 0 1 (S "laps") [] rfl
    (fun _ h => Except.noConfusion h) rfl (by decide) (by decide)

/-- The parser returns exactly the successes, in order, and counts the
failures. -/
theorem parse_list_spec {β : Type} (parse : Json → Except String β)
    (data : List Json) :
    (_parse_list parse data).1 = data.filterMap (fun it => (parse it).toOption) ∧
    (_parse_list parse data).2 =
      data.countP (fun it => ((parse it).toOption).isNone) ∧
    (_parse_list parse data).1.length + (_parse_list parse data).2 =
      data.length := by
  induction data with
  | nil => exact ⟨rfl, rfl, rfl⟩
  | cons item rest ih =>
    obtain ⟨ih1, ih2, ih3⟩ := ih
    unfold _parse_list
    cases hp : parse item with
    | ok b =>
      refine ⟨?_, ?_, ?_⟩
      · simp [List.filterMap_cons, hp, Except.toOption, ih1]
      · simp [List.countP_cons, hp, Except.toOption, ih2]
      · simp only [List.length_cons]
        omega
    | error e =>
      refine ⟨?_, ?_, ?_⟩
      · simp [List.filterMap_cons, hp, Except.toOption, ih1]
      · simp [List.countP_cons, hp, Except.toOption, ih2]
      · simp only [List.length_cons]
        omega

/-- C8: `_parse_list` returns exactly the successfully parsed records
in input order (the failures filtered out), never raises for a
per-record failure (it is a total function), and counts the dropped
records; in particular the concrete batch of 10 raw stint objects with
2 missing a required field yields exactly 8 records and 2 drops. -/
theorem parse_list_partial_failure {β : Type} (parse : Json → Except String β)
    (data : List Json) :
    (_parse_list parse data).1 = data.filterMap (fun it => (parse it).toOption) ∧
    (_parse_list parse data).2 =
      data.countP (fun it => ((parse it).toOption).isNone) ∧
    (_parse_list parse data).1.length + (_parse_list parse data).2 =
      data.length ∧
    (_parse_list Stint.parse_obj tenStints).1.length = 8 ∧
    (_parse_list Stint.parse_obj tenStints).2 = 2 := by
  obtain ⟨h1, h2, h3⟩ := parse_list_spec parse data
  exact ⟨h1, h2, h3, by decide, by decide⟩

/-- `str.split(":")` on a string with one separator occurrence yields
exactly the two surrounding pieces. -/
theorem splitOn_sep_of_free {s₀ s₁ : Str} (h0 : ':' ∉ s₀) (h1 : ':' ∉ s₁) :
    (s₀ ++ ':' :: s₁).splitOn ':' = [s₀, s₁] := by
  have hfree : ∀ x ∈ s₀, ¬(x == ':') = true := by
    intro x hx hb
    exact h0 ((eq_of_beq hb) ▸ hx)
  have hfree1 : ∀ x ∈ s₁, ¬(x == ':') = true := by
    intro x hx hb
    exact h1 ((eq_of_beq hb) ▸ hx)
  show (s₀ ++ ':' :: s₁).splitOnP (fun c => c == ':') = [s₀, s₁]
  rw [List.splitOnP_first _ _ hfree ':' (by simp) s₁]
  rw [List.splitOnP_eq_single _ _ hfree1]

/-- Concrete evaluation of the `float(...)` model on `"1"`. -/
theorem parseFloat_one : parseFloat (S "1") = some 1 := by
  rw [show parseFloat (S "1") = some ((1 : ℚ) * (natVal (S "1") : ℚ)) from rfl,
    show natVal (S "1") = 1 from rfl]
  norm_num

/-- Concrete evaluation of the `float(...)` model on `"23.456"`. -/
theorem parseFloat_23456 : parseFloat (S "23.456") = some (23456 / 1000) := by
  rw [show parseFloat (S "23.456") =
      some ((1 : ℚ) * ((natVal (S "23") : ℚ) +
        (natVal (S "456") : ℚ) / (10 : ℚ) ^ (S "456").length)) from rfl,
    show natVal (S "23") = 23 from rfl, show natVal (S "456") = 456 from rfl,
    show (S "456").length = 3 from rfl]
  norm_num

/-- A well-formed `"M:SS.mmm"` string normalizes to
`minutes * 60 + seconds`. -/
theorem convert_time_colon (s₀ s₁ : Str) (m sec : ℚ) (h0 : ':' ∉ s₀)
    (h1 : ':' ∉ s₁) (hm : parseFloat s₀ = some m)
    (hs : parseFloat s₁ = some sec) :
    _convert_time_to_seconds (TimeVal.str (s₀ ++ ':' :: s₁)) =
      some (m * 60 + sec) := by
  simp only [_convert_time_to_seconds]
  rw [if_pos (by simp : ':' ∈ s₀ ++ ':' :: s₁)]
  rw [splitOn_sep_of_free h0 h1]
  simp [hm, hs]

/-- C9: the duration normalizer accepts a raw numeric (seconds) and
passes it through unchanged; accepts an `"M:SS.mmm"`-style string,
combining the two parsed components as `minutes * 60 + seconds` (in
particular `"1:23.456"` maps to `83.456` and the numeric `83.456` to
itself, with Python floats idealized as exact rationals); and maps
`None` and unparseable strings (with or without a `:`) to the absent
marker, raising nothing (the function is total). -/
theorem convert_time_normalizes :
    (∀ q : ℚ, _convert_time_to_seconds (TimeVal.num q) = some q) ∧
    (∀ (s₀ s₁ : Str) (m sec : ℚ), ':' ∉ s₀ → ':' ∉ s₁ →
      parseFloat s₀ = some m → parseFloat s₁ = some sec →
      _convert_time_to_seconds (TimeVal.str (s₀ ++ ':' :: s₁)) =
        some (m * 60 + sec)) ∧
    _convert_time_to_seconds (TimeVal.str (S "1:23.456")) = some (83456 / 1000) ∧
    _convert_time_to_seconds (TimeVal.num (83456 / 1000)) = some (83456 / 1000) ∧
    _convert_time_to_seconds TimeVal.none = Option.none ∧
    (∀ s : Str, ':' ∉ s → parseFloat s = Option.none →
      _convert_time_to_seconds (TimeVal.str s) = Option.none) ∧
    (∀ (s₀ s₁ : Str), ':' ∉ s₀ → ':' ∉ s₁ →
      parseFloat s₀ = Option.none ∨ parseFloat s₁ = Option.none →
      _convert_time_to_seconds (TimeVal.str (s₀ ++ ':' :: s₁)) =
        Option.none) := by
  refine ⟨fun q => rfl, convert_time_colon, ?_, rfl, rfl, ?_, ?_⟩
  · rw [show S "1:23.456" = S "1" ++ ':' :: S "23.456" from rfl]
    rw [convert_time_colon (S "1") (S "23.456") 1 (23456 / 1000) (by decide)
      (by decide) parseFloat_one parseFloat_23456]
    norm_num
  · intro s hmem hp
    simp only [_convert_time_to_seconds]
    rw [if_neg hmem]
    exact hp
  · intro s₀ s₁ h0 h1 hor
    simp only [_convert_time_to_seconds]
    rw [if_pos (by simp : ':' ∈ s₀ ++ ':' :: s₁)]
    rw [splitOn_sep_of_free h0 h1]
    rcases hor with hp | hp
    · simp [hp]
    · cases parseFloat s₀ <;> simp [hp]

/-- Witness for C9: `"1:23.456"` normalizes to `83.456` seconds and
`"abc"` to the absent marker. -/
theorem convert_time_normalizes_witness :
    _convert_time_to_seconds (TimeVal.str (S "1" ++ ':' :: S "23.456")) =
      some (1 * 60 + (23456 / 1000 : ℚ)) ∧
    _convert_time_to_seconds (TimeVal.str (S "abc")) = Option.none :=
  ⟨convert_time_normalizes.2.1 (S "1") (S "23.456") 1 (23456 / 1000)
      (by decide) (by decide) parseFloat_one parseFloat_23456,
   convert_time_normalizes.2.2.2.2.2.1 (S "abc") (by decide) (by decide)⟩
